import Mathlib

/-!
Verification development for the university news crawler (src/crawler.py).

The definitions below are a shallow embedding of the pure logic of the
crawler: the keyword categorizer, the date recognizer/parser (Python
`re` search and `datetime.strptime` restricted to the directives the
crawler uses), the HTML news extractor over an immutable DOM-like tree,
the reachability check, and the insert-with-dedup persistence step.

Modelling conventions:
* Python `str` is modelled by Lean `String` (both index by code point).
* The regex class `\d` and `str.lower()` are modelled over ASCII
  (`Char.isDigit`, `Char.toLower`); the crawler's keywords and date
  digits are ASCII or CJK, where the two notions agree.
* Exceptions that a function catches and converts to a sentinel are
  modelled by `Option`: `none` models the raised-and-caught error.
* HTML-entity decoding (`html.unescape`) is modelled as already applied
  to the strings stored in the tree, matching BeautifulSoup, which
  decodes entities at parse time.
-/

/-! ## Generic string helpers -/

/-- Decides whether `n` is a prefix of `h` (needle first). -/
def isPre : List Char → List Char → Bool
  | [], _ => true
  | _ :: _, [] => false
  | c :: cs, h :: hs => c == h && isPre cs hs

/-- Decides whether `n` occurs as a contiguous substring of `hay`;
this is Python's `n in hay` on strings. -/
def subOf (n : List Char) : List Char → Bool
  | [] => isPre n []
  | hay@(_ :: hs) => isPre n hay || subOf n hs

/-- Python `str.lower()`, restricted to ASCII letters (the only letters
appearing in the crawler's keyword table). -/
def lowerStr (s : String) : String := String.mk (s.toList.map Char.toLower)

/-- Membership of a single character in the class of the source's
`chinese_pattern` regex, the range 4E00 to 9FA5. -/
def chineseChar (c : Char) : Bool := decide (0x4e00 ≤ c.toNat ∧ c.toNat ≤ 0x9fa5)

/-- Whether `chinese_pattern.search(s)` succeeds, i.e. some character of `s`
lies in `[一-龥]`. -/
def hasChinese (s : String) : Bool := s.toList.any chineseChar

/-- Numeric value of an ASCII digit. -/
def digitVal (c : Char) : Nat := c.toNat - 48

/-- Value of a two-ASCII-digit numeral. -/
def twoDigitVal (a b : Char) : Nat := 10 * digitVal a + digitVal b

/-- Boolean interval test. -/
def between (lo v hi : Nat) : Bool := decide (lo ≤ v ∧ v ≤ hi)

/-! ## Categorizer (`category_mapping`, `categorize_news`) -/

/-- The crawler's `category_mapping` dict, in its Python insertion
(= iteration) order. -/
def category_mapping : List (String × List String) :=
  [ ("招生", ["招生", "录取", "admissions"]),
    ("科研", ["实验", "发现", "突破", "discovery"]),
    ("校园", ["校园", "校园生活", "campus"]),
    ("大学", ["大学", "学院", "university"]),
    ("学术", ["研究", "学术", "论文", "science", "research"]),
    ("活动", ["活动", "讲座", "会议", "event", "forum"]),
    ("公告", ["通知", "公告", "声明", "announcement"]) ]

/-- The `for category, keywords in category_mapping.items()` loop of
`categorize_news`: first category one of whose keywords is a substring
of the lowered title wins; default `其他`. -/
def categorizeAux (lowered : List Char) : List (String × List String) → String
  | [] => "其他"
  | (cat, kws) :: rest =>
      if kws.any (fun kw => subOf kw.toList lowered) then cat
      else categorizeAux lowered rest

/-- Source function `categorize_news(title)` from src/crawler.py. -/
def categorize_news (title : String) : String :=
  categorizeAux (lowerStr title).toList category_mapping

/-! ## `datetime.strptime`, restricted to the directives `%Y %m %d`

Python's `_strptime` compiles a format string to a regex:
`%Y ↦ \d\d\d\d`, `%m ↦ 1[0-2]|0[1-9]|[1-9]`,
`%d ↦ 3[01]|[12]\d|0[1-9]|[1-9]`, other characters are literals.
The regex must consume the whole input, alternatives are tried left to
right with backtracking, and the resulting numbers must form a valid
`datetime` (year 1–9999, day within the month) or `ValueError` is
raised.  The two-digit alternatives of `%m`/`%d` are exactly the
two-digit numerals with value in 1–12 resp. 1–31, tried before the
one-digit alternative. -/

inductive SToken where
  | y
  | m
  | d
  | lit (c : Char)
deriving DecidableEq, Repr

/-- Tokenize a `strptime` format string. -/
def parseFormat : List Char → List SToken
  | [] => []
  | '%' :: 'Y' :: rest => SToken.y :: parseFormat rest
  | '%' :: 'm' :: rest => SToken.m :: parseFormat rest
  | '%' :: 'd' :: rest => SToken.d :: parseFormat rest
  | c :: rest => SToken.lit c :: parseFormat rest

/-- Backtracking matcher for a token list against the input, carrying
the `(year, month, day)` fields with `_strptime`'s defaults; requires
full consumption of the input. -/
def runFmt : List SToken → List Char → Nat × Nat × Nat → Option (Nat × Nat × Nat)
  | [], [], acc => some acc
  | [], _ :: _, _ => none
  | SToken.lit c :: ts, e :: s, acc => if e = c then runFmt ts s acc else none
  | SToken.lit _ :: _, [], _ => none
  | SToken.y :: ts, a :: b :: c :: e :: s, acc =>
      if a.isDigit && b.isDigit && c.isDigit && e.isDigit then
        runFmt ts s
          (1000 * digitVal a + 100 * digitVal b + 10 * digitVal c + digitVal e,
           acc.2.1, acc.2.2)
      else none
  | SToken.y :: _, _, _ => none
  | SToken.m :: ts, a :: b :: s, acc =>
      match (if a.isDigit && b.isDigit && between 1 (twoDigitVal a b) 12 then
               runFmt ts s (acc.1, twoDigitVal a b, acc.2.2)
             else none) with
      | some r => some r
      | none =>
          if a.isDigit && between 1 (digitVal a) 9 then
            runFmt ts (b :: s) (acc.1, digitVal a, acc.2.2)
          else none
  | SToken.m :: ts, [a], acc =>
      if a.isDigit && between 1 (digitVal a) 9 then
        runFmt ts [] (acc.1, digitVal a, acc.2.2)
      else none
  | SToken.m :: _, [], _ => none
  | SToken.d :: ts, a :: b :: s, acc =>
      match (if a.isDigit && b.isDigit && between 1 (twoDigitVal a b) 31 then
               runFmt ts s (acc.1, acc.2.1, twoDigitVal a b)
             else none) with
      | some r => some r
      | none =>
          if a.isDigit && between 1 (digitVal a) 9 then
            runFmt ts (b :: s) (acc.1, acc.2.1, digitVal a)
          else none
  | SToken.d :: ts, [a], acc =>
      if a.isDigit && between 1 (digitVal a) 9 then
        runFmt ts [] (acc.1, acc.2.1, digitVal a)
      else none
  | SToken.d :: _, [], _ => none

/-- Gregorian leap year, as `datetime` uses. -/
def isLeap (y : Nat) : Bool := (y % 4 == 0 && y % 100 != 0) || y % 400 == 0

/-- Days in a month, as `datetime` validates. -/
def daysInMonth (y m : Nat) : Nat :=
  if m = 2 then (if isLeap y then 29 else 28)
  else if m = 4 ∨ m = 6 ∨ m = 9 ∨ m = 11 then 30
  else 31

/-- Validity as checked by the `datetime(year, month, day)` constructor. -/
def validDate (y m d : Nat) : Bool :=
  between 1 y 9999 && between 1 m 12 && between 1 d (daysInMonth y m)

/-- Python `datetime.strptime(s, fmt)` for the crawler's formats: `none`
models the raised `ValueError` (regex mismatch, partial consumption, or
invalid calendar date). -/
def strptime (fmt s : String) : Option (Nat × Nat × Nat) :=
  match runFmt (parseFormat fmt.toList) s.toList (1900, 1, 1) with
  | some (y, m, d) => if validDate y m d then some (y, m, d) else none
  | none => none

/-! ## `parse_date` -/

/-- The crawler's `date_formats` list, in source order. -/
def date_formats : List String :=
  ["%Y年%m月%d日", "%Y%m%d", "%Y/%m/%d", "%Y-%m-%d", "%Y-%m", "%m%d%Y", "%d%Y/%m"]

/-- A calendar date as the crawler consumes it. -/
structure Date where
  year : Nat
  month : Nat
  day : Nat
deriving DecidableEq, Repr

/-- The `for fmt in date_formats` loop of `parse_date`, including the
`replace(day=1)` special case for `%Y-%m`. -/
def parse_dateAux (s : String) : List String → Option Date
  | [] => none
  | fmt :: rest =>
      match strptime fmt s with
      | some (y, m, d) =>
          some (if fmt = "%Y-%m" then Date.mk y m 1 else Date.mk y m d)
      | none => parse_dateAux s rest

/-- Source function `parse_date(date_str)` from src/crawler.py; `none` models the
raised `ValueError("无法识别的日期格式")`. -/
def parse_date (s : String) : Option Date := parse_dateAux s date_formats

/-- Zero padding used by `strftime` with format `%Y-%m-%d`. -/
def padNum (w n : Nat) : String :=
  String.mk (List.replicate (w - (toString n).length) '0') ++ toString n

/-- Python `strftime` with format `%Y-%m-%d`. -/
def formatDate (d : Date) : String :=
  padNum 4 d.year ++ "-" ++ padNum 2 d.month ++ "-" ++ padNum 2 d.day

/-! ## The `date_pattern` regex

The crawler compiles `date_pattern` with five alternatives (writing
`S?` below for the source's optional dash-or-slash separator class):
`\d{4}S?\d{1,2}S?\d{1,2}` | `\d{1,2}S?\d{1,2}S?\d{4}` |
`\d{4}年\d{1,2}月\d{1,2}日` | `\d{2}\d{4}/\d{2}` | `\d{2}\d{4}`.

Python `re.search` semantics: the match starts at the leftmost position
where any alternative matches; at that position alternatives are tried
in written order; `\d{1,2}` is greedy (two digits tried before one)
with backtracking; the optional separator is greedy (consume tried
before skip). -/

inductive RTok where
  | d4
  | d2
  | d12
  | sep
  | lit (c : Char)
deriving DecidableEq, Repr

/-- Backtracking matcher for one regex alternative: returns the
remainder of the input after the (greedy, leftmost-biased) match. -/
def matchRToks : List RTok → List Char → Option (List Char)
  | [], s => some s
  | RTok.lit c :: ts, e :: s => if e = c then matchRToks ts s else none
  | RTok.lit _ :: _, [] => none
  | RTok.d4 :: ts, a :: b :: c :: e :: s =>
      if a.isDigit && b.isDigit && c.isDigit && e.isDigit then matchRToks ts s
      else none
  | RTok.d4 :: _, _ => none
  | RTok.d2 :: ts, a :: b :: s =>
      if a.isDigit && b.isDigit then matchRToks ts s else none
  | RTok.d2 :: _, _ => none
  | RTok.d12 :: ts, a :: b :: s =>
      if a.isDigit && b.isDigit then
        match matchRToks ts s with
        | some r => some r
        | none => if a.isDigit then matchRToks ts (b :: s) else none
      else if a.isDigit then matchRToks ts (b :: s)
      else none
  | RTok.d12 :: ts, [a] => if a.isDigit then matchRToks ts [] else none
  | RTok.d12 :: _, [] => none
  | RTok.sep :: ts, e :: s =>
      if e = '-' ∨ e = '/' then
        match matchRToks ts s with
        | some r => some r
        | none => matchRToks ts (e :: s)
      else matchRToks ts (e :: s)
  | RTok.sep :: ts, [] => matchRToks ts []

/-- Alternative 1: `\d{4}S?\d{1,2}S?\d{1,2}`. -/
def reAlt1 : List RTok := [RTok.d4, RTok.sep, RTok.d12, RTok.sep, RTok.d12]

/-- Alternative 2: `\d{1,2}S?\d{1,2}S?\d{4}`. -/
def reAlt2 : List RTok := [RTok.d12, RTok.sep, RTok.d12, RTok.sep, RTok.d4]

/-- Alternative 3: `\d{4}年\d{1,2}月\d{1,2}日`. -/
def reAlt3 : List RTok :=
  [RTok.d4, RTok.lit '年', RTok.d12, RTok.lit '月', RTok.d12, RTok.lit '日']

/-- Alternative 4: `\d{2}\d{4}/\d{2}`. -/
def reAlt4 : List RTok := [RTok.d2, RTok.d4, RTok.lit '/', RTok.d2]

/-- Alternative 5: `\d{2}\d{4}`. -/
def reAlt5 : List RTok := [RTok.d2, RTok.d4]

/-- The five alternatives of `date_pattern`, in written order. -/
def dateAlternatives : List (List RTok) := [reAlt1, reAlt2, reAlt3, reAlt4, reAlt5]

/-- Try the alternatives in order at one start position; on success
return the length of the matched span. -/
def matchAlts : List (List RTok) → List Char → Option Nat
  | [], _ => none
  | alt :: alts, s =>
      match matchRToks alt s with
      | some r => some (s.length - r.length)
      | none => matchAlts alts s

/-- Search of `date_pattern`, returning `match.group(1)`: scan start
positions left to right, first position with a match wins.  (The empty
suffix is never a match since every alternative begins with a digit, so
stopping at `[]` is faithful.) -/
def date_pattern_search : List Char → Option (List Char)
  | [] => none
  | s@(_ :: rest) =>
      match matchAlts dateAlternatives s with
      | some n => some (s.take n)
      | none => date_pattern_search rest

/-- The Date Recognizer `recognize(text)` of the spec: the first raw
date substring `date_pattern` finds in the text. -/
def recognize (text : String) : Option String :=
  (date_pattern_search text.toList).map String.mk


/-! ## DOM model and the News Extractor (`extract_news`)

BeautifulSoup's parsed document is modelled as an immutable tree of
element and text nodes; the anchor enumeration of `find_all` is a
pre-order traversal collecting `a` elements carrying `href`,
together with their ancestor chain (nearest first), which models the
`element.parent` walk. -/

inductive Node where
  | text (s : String)
  | elem (tag : String) (attrs : List (String × String)) (children : List Node)
deriving Repr

/-- Python `str.strip()` (whitespace on both ends). -/
def stripStr (s : String) : String :=
  String.mk (((s.toList.dropWhile Char.isWhitespace).reverse.dropWhile
    Char.isWhitespace).reverse)

/-- Attribute lookup `tag.get(key)`: first binding of the attribute. -/
def getAttr (attrs : List (String × String)) (key : String) : Option String :=
  (attrs.find? (fun p => p.1 == key)).map (fun p => p.2)

mutual

/-- BeautifulSoup `element.get_text()`: concatenation of all descendant strings. -/
def getText : Node → String
  | Node.text s => s
  | Node.elem _ _ cs => getTextL cs

/-- Helper: `get_text` over a child list. -/
def getTextL : List Node → String
  | [] => ""
  | n :: ns => getText n ++ getTextL ns

end

mutual

/-- BeautifulSoup `element.get_text(strip=True)`: concatenation of the individually
stripped descendant strings. -/
def strippedText : Node → String
  | Node.text s => stripStr s
  | Node.elem _ _ cs => strippedTextL cs

/-- Helper: `get_text(strip=True)` over a child list. -/
def strippedTextL : List Node → String
  | [] => ""
  | n :: ns => strippedText n ++ strippedTextL ns

end

mutual

/-- The anchor enumeration of `find_all` (tag `a`, carrying `href`)
in document (pre-)order, pairing
each anchor with its ancestor chain, nearest ancestor first. -/
def anchorsOf : Node → List Node → List (Node × List Node)
  | Node.text _, _ => []
  | n@(Node.elem tag attrs cs), ancs =>
      (if tag = "a" ∧ (getAttr attrs "href").isSome then [(n, ancs)] else []) ++
        anchorsOfL cs (n :: ancs)

/-- Helper: the anchor enumeration over a child list. -/
def anchorsOfL : List Node → List Node → List (Node × List Node)
  | [], _ => []
  | n :: ns, ancs => anchorsOf n ancs ++ anchorsOfL ns ancs

end

/-- The `while element and not date_str` walk of `extract_news`: the
first node in the chain (anchor, then its ancestors up to the root)
whose text contains a `date_pattern` match yields `match.group(1)`. -/
def findDate : List Node → Option String
  | [] => none
  | n :: rest =>
      match date_pattern_search (getText n).toList with
      | some cs => some (String.mk cs)
      | none => findDate rest

/-- Modelled from the stdlib collaborator `urllib.parse.urljoin`,
restricted to the reference shapes the crawler meets: an absolute
`http(s)` href is returned as is, a root-relative href is resolved
against the scheme-and-host of the base, and any other href against
the base with its last path segment removed.  (Dot-segment and query
handling of the full RFC 3986 algorithm are not needed here.) -/
def takeUntilSlash : List Char → List Char
  | [] => []
  | '/' :: _ => []
  | c :: rest => c :: takeUntilSlash rest

/-- Scheme and host of a URL: everything up to the first slash after
the `://`. -/
def takeSchemeHost : List Char → List Char
  | [] => []
  | ':' :: '/' :: '/' :: rest => ':' :: '/' :: '/' :: takeUntilSlash rest
  | c :: rest => c :: takeSchemeHost rest

/-- The base with its last path segment removed (up to and including
the final slash). -/
def upToLastSlash (cs : List Char) : List Char :=
  ((cs.reverse.dropWhile (fun c => c ≠ '/'))).reverse

/-- Model of `urljoin(base, href)` on the shapes described at `takeSchemeHost`. -/
def urljoin (base href : String) : String :=
  if isPre "http://".toList href.toList || isPre "https://".toList href.toList then
    href
  else if isPre "/".toList href.toList then
    String.mk (takeSchemeHost base.toList) ++ href
  else
    String.mk (upToLastSlash base.toList) ++ href

/-- One extracted news candidate, as `extract_news` emits it. -/
structure NewsItem where
  title : String
  url : String
  date : String
deriving DecidableEq, Repr

/-- Title derivation of the source: the `title` attribute if present
and non-empty, else `get_text(strip=True)`; the Python `or` falls
through on both a missing and an empty attribute. -/
def deriveTitle (n : Node) : String :=
  match n with
  | Node.elem _ attrs _ =>
      match getAttr attrs "title" with
      | some t => if t = "" then strippedText n else t
      | none => strippedText n
  | Node.text _ => strippedText n

/-- Href lookup of the loop body, defaulting to `""` for a non-anchor (never reached
on the anchors `anchorsOf` produces). -/
def hrefOf (n : Node) : String :=
  match n with
  | Node.elem _ attrs _ =>
      match getAttr attrs "href" with
      | some h => h
      | none => ""
  | Node.text _ => ""

/-- The body of the `for link in soup.find_all('a', href=True)` loop:
`none` when the `continue` branches fire or the candidate is dropped
(no date found, empty URL, or `parse_date` raising `ValueError`, which
the loop catches and logs). -/
def processAnchor (base : String) (p : Node × List Node) : Option NewsItem :=
  let title := deriveTitle p.1
  if title = "" ∨ title.length < 8 then none
  else if hasChinese title = false then none
  else
    let url := urljoin base (hrefOf p.1)
    match findDate (p.1 :: p.2) with
    | none => none
    | some ds =>
        if url = "" then none
        else
          match parse_date ds with
          | some d => some (NewsItem.mk title url (formatDate d))
          | none => none

/-- The per-anchor pipeline over an explicit anchor list; the loop body
of `extract_news`. -/
def extractFrom (base : String) (l : List (Node × List Node)) : List NewsItem :=
  l.filterMap (processAnchor base)

/-- Source function `extract_news(html_content, base_url)`, taking
the parsed document tree as input. -/
def extract_news (root : Node) (base : String) : List NewsItem :=
  extractFrom base (anchorsOf root [])

/-! ## Concrete documents used by the end-to-end claims -/

/-- The end-to-end scenario document of the spec: one anchor inside a
span that also holds the date text. -/
def doc2 : Node :=
  Node.elem "html" []
    [Node.elem "span" []
      [Node.elem "a" [("href", "/news/1.htm")]
        [Node.text "上海大学召开2024年招生工作会议"],
       Node.text "2024-05-10"]]

/-- The record the scenario should produce. -/
def rec2 : NewsItem :=
  NewsItem.mk "上海大学召开2024年招生工作会议"
    "https://news.shu.edu.cn/news/1.htm" "2024-05-10"


/-- An anchor whose nearby date substring is recognized by
`date_pattern` but rejected by every `parse_date` template. -/
def a7bad : Node :=
  Node.elem "a" [("href", "/b.htm")] [Node.text "某大学重要新闻发布99/99/9999"]

/-- An anchor with a well-formed date. -/
def a7good : Node :=
  Node.elem "a" [("href", "/g.htm")] [Node.text "某大学重要新闻发布2024-05-10"]

/-- Two anchors with identical rendered text (hence identical derived
titles) but different hrefs. -/
def a10a : Node := Node.elem "a" [("href", "a.htm")] [Node.text "同题新闻标题测试一二"]

/-- Second anchor with the same text as `a10a`. -/
def a10b : Node := Node.elem "a" [("href", "b.htm")] [Node.text "同题新闻标题测试一二"]

/-- Document holding two same-titled anchors and one date text. -/
def doc10 : Node := Node.elem "html" [] [a10a, Node.text "2024-05-10", a10b]

/-- First record extracted from `doc10`. -/
def rec10a : NewsItem :=
  NewsItem.mk "同题新闻标题测试一二" "https://example.edu.cn/news/a.htm" "2024-05-10"

/-- Second record extracted from `doc10`: same title, different url. -/
def rec10b : NewsItem :=
  NewsItem.mk "同题新闻标题测试一二" "https://example.edu.cn/news/b.htm" "2024-05-10"

/-! ## Link Validator (`check_url_availability`)

The network probe `requests.head(url, timeout=timeout,`
`allow_redirects=True)` is a collaborator; its possible outcomes are
modelled as a closed datatype.  The `except (RequestException,`
`ValueError)` clause of the source covers exactly the network-error,
timeout and malformed-URL outcomes, which it converts to `False`; the
function is total (never raises). -/

inductive ProbeOutcome where
  | success (status : Nat)
  | networkError
  | timedOut
  | malformedUrl
deriving DecidableEq, Repr

/-- Source function `check_url_availability(url, timeout)`, as a
function of the probe's outcome: `resp.status_code == 200` on a
response, `False` on every caught exception. -/
def check_url_availability : ProbeOutcome → Bool
  | ProbeOutcome.success status => status == 200
  | ProbeOutcome.networkError => false
  | ProbeOutcome.timedOut => false
  | ProbeOutcome.malformedUrl => false

/-! ## Persistence Gateway (`insert_news_data`)

The MySQL table is modelled as the list of its rows; the `UNIQUE`
constraint on `title` surfaces as `pymysql.IntegrityError` 1062, which
the source catches and treats as dedup (the row is skipped, the loop
continues, the count is unchanged).  The reachability probe is passed
in as a boolean oracle on URLs. -/

/-- A candidate entry of the `data` list passed to `insert_news_data`
(the dict built in `main`). -/
structure InsertItem where
  university_name : String
  title : String
  date : String
  url : String
deriving DecidableEq, Repr

/-- A stored row of the `news_info` table (auto-id and timestamp
omitted; neither influences the insert logic). -/
structure Row where
  university_name : String
  title : String
  date : String
  link : String
  category : String
deriving DecidableEq, Repr

/-- The row the `INSERT` statement of `insert_news_data` would create:
the category is derived from the title at insert time. -/
def mkRow (item : InsertItem) : Row :=
  Row.mk item.university_name item.title item.date item.url
    (categorize_news item.title)

/-- The `for item in data` loop of `insert_news_data`: skip unreachable
links; a duplicate title (unique-key violation) is skipped without
affecting the count; otherwise the row is inserted and counted.
Returns `(inserted_count, table after the batch)`. -/
def insert_news_data (reach : String → Bool) : List InsertItem → List Row → Nat × List Row
  | [], store => (0, store)
  | item :: rest, store =>
      if reach item.url = false then insert_news_data reach rest store
      else if store.any (fun row => row.title == item.title) then
        insert_news_data reach rest store
      else
        let result := insert_news_data reach rest (store ++ [mkRow item])
        (result.1 + 1, result.2)


/-! # Helper lemmas -/

/-- No alternative of `date_pattern` matches the empty input: every
alternative begins with a digit token. -/
theorem matchAlts_empty : matchAlts dateAlternatives [] = none := by decide

/-- Failure of the whole search is failure at every start position. -/
theorem search_none_iff (s : List Char) :
    date_pattern_search s = none ↔
      ∀ k, matchAlts dateAlternatives (List.drop k s) = none := by
  induction s with
  | nil => simp [date_pattern_search, matchAlts_empty]
  | cons c rest ih =>
      constructor
      · intro h k
        cases hm : matchAlts dateAlternatives (c :: rest) with
        | some n => simp [date_pattern_search, hm] at h
        | none =>
            have h2 : date_pattern_search rest = none := by
              simpa [date_pattern_search, hm] using h
            cases k with
            | zero => simpa using hm
            | succ k => simpa using (ih.mp h2 k)
      · intro h
        have h0 : matchAlts dateAlternatives (c :: rest) = none := by
          simpa using h 0
        have hr : ∀ k, matchAlts dateAlternatives (List.drop k rest) = none :=
          fun k => by simpa using h (k + 1)
        simp [date_pattern_search, h0, ih.mpr hr]

/-- The search returns the match at the leftmost position where some
alternative matches. -/
theorem search_leftmost (s : List Char) :
    ∀ k n, (∀ j, j < k → matchAlts dateAlternatives (List.drop j s) = none) →
      matchAlts dateAlternatives (List.drop k s) = some n →
      date_pattern_search s = some (List.take n (List.drop k s)) := by
  induction s with
  | nil =>
      intro k n _ hk
      rw [List.drop_nil, matchAlts_empty] at hk
      cases hk
  | cons c rest ih =>
      intro k n hlt hk
      cases k with
      | zero =>
          simp only [List.drop_zero] at hk ⊢
          simp [date_pattern_search, hk]
      | succ k =>
          have h0 : matchAlts dateAlternatives (c :: rest) = none := by
            simpa using hlt 0 (Nat.succ_pos k)
          have hrec := ih k n
            (fun j hj => by simpa using hlt (j + 1) (Nat.succ_lt_succ hj))
            (by simpa using hk)
          simpa [date_pattern_search, h0] using hrec

/-- At one start position, the first alternative in written order that
matches provides the result of `matchAlts`. -/
theorem matchAlts_first_alternative (pre : List (List RTok)) :
    ∀ (alt : List RTok) (post : List (List RTok)) (s r : List Char),
      (∀ a ∈ pre, matchRToks a s = none) → matchRToks alt s = some r →
      matchAlts (pre ++ alt :: post) s = some (s.length - r.length) := by
  induction pre with
  | nil => intro alt post s r _ h; simp [matchAlts, h]
  | cons q pre ih =>
      intro alt post s r hpre h
      have hq : matchRToks q s = none := hpre q (by simp)
      simp only [List.cons_append, matchAlts, hq]
      exact ih alt post s r (fun a ha => hpre a (by simp [ha])) h

/-- The format-list loop of `parse_date` fails exactly when every
template fails. -/
theorem parse_dateAux_none_iff (s : String) :
    ∀ fmts, parse_dateAux s fmts = none ↔ ∀ fmt ∈ fmts, strptime fmt s = none := by
  intro fmts
  induction fmts with
  | nil => simp [parse_dateAux]
  | cons f rest ih =>
      cases hf : strptime f s with
      | some v =>
          obtain ⟨y, m, d⟩ := v
          simp [parse_dateAux, hf]
      | none => simp [parse_dateAux, hf, ih]

/-- The format-list loop of `parse_date` returns the value of the first
succeeding template, with the day forced to 1 for `%Y-%m`. -/
theorem parse_dateAux_first (s : String) :
    ∀ (pre : List String) (fmt : String) (post : List String) (y m d : Nat),
      (∀ f ∈ pre, strptime f s = none) → strptime fmt s = some (y, m, d) →
      parse_dateAux s (pre ++ fmt :: post) =
        some (if fmt = "%Y-%m" then Date.mk y m 1 else Date.mk y m d) := by
  intro pre
  induction pre with
  | nil => intro fmt post y m d _ hf; simp [parse_dateAux, hf]
  | cons q pre ih =>
      intro fmt post y m d hpre hf
      have hq : strptime q s = none := hpre q (by simp)
      simp only [List.cons_append, parse_dateAux, hq]
      exact ih fmt post y m d (fun f hfm => hpre f (by simp [hfm])) hf

/-- An anchor whose recognized date substring no template parses
contributes nothing to the extraction. -/
theorem processAnchor_none_of_bad_date (base : String) (p : Node × List Node)
    (ds : String) (hfound : findDate (p.1 :: p.2) = some ds)
    (hfail : parse_date ds = none) : processAnchor base p = none := by
  simp only [processAnchor, hfound, hfail, ite_self]

/-- Everything `processAnchor` emits passed the title-length and
CJK-content guards. -/
theorem processAnchor_title_checks (base : String) (p : Node × List Node)
    (r : NewsItem) (hp : processAnchor base p = some r) :
    8 ≤ r.title.length ∧ r.title.toList.any chineseChar = true := by
  simp only [processAnchor] at hp
  by_cases h1 : deriveTitle p.1 = "" ∨ (deriveTitle p.1).length < 8
  · simp [h1] at hp
  · rw [if_neg h1] at hp
    by_cases h2 : hasChinese (deriveTitle p.1) = false
    · simp [h2] at hp
    · rw [if_neg h2] at hp
      have htitle : r.title = deriveTitle p.1 := by
        cases hd : findDate (p.1 :: p.2) with
        | none => simp [hd] at hp
        | some ds =>
            simp only [hd] at hp
            by_cases hu : urljoin base (hrefOf p.1) = ""
            · rw [if_pos hu] at hp; cases hp
            · rw [if_neg hu] at hp
              cases hpd : parse_date ds with
              | none => simp [hpd] at hp
              | some dd =>
                  simp only [hpd] at hp
                  cases hp
                  rfl
      push_neg at h1
      constructor
      · rw [htitle]; exact h1.2
      · rw [htitle]
        have h3 := eq_true_of_ne_false h2
        simpa [hasChinese] using h3

/-- The extraction of doc2 (used both by the end-to-end claim and as a
concrete instance for the title-filter claim). -/
theorem extract_doc2 :
    extract_news doc2 "https://news.shu.edu.cn/index/zyxw.htm" = [rec2] := by
  decide

/-- The resulting table always extends the initial one. -/
theorem insert_store_extends (reach : String → Bool) :
    ∀ (data : List InsertItem) (store : List Row),
      ∃ ext, (insert_news_data reach data store).2 = store ++ ext := by
  intro data
  induction data with
  | nil => intro store; exact ⟨[], by simp [insert_news_data]⟩
  | cons item rest ih =>
      intro store
      by_cases h1 : reach item.url = false
      · obtain ⟨ext, hext⟩ := ih store
        exact ⟨ext, by simp [insert_news_data, h1, hext]⟩
      · by_cases h2 : store.any (fun row => row.title == item.title) = true
        · obtain ⟨ext, hext⟩ := ih store
          exact ⟨ext, by simp [insert_news_data, h1, h2, hext]⟩
        · obtain ⟨ext, hext⟩ := ih (store ++ [mkRow item])
          refine ⟨mkRow item :: ext, ?_⟩
          simp only [insert_news_data, if_neg h1, if_neg h2]
          rw [hext]
          simp

/-- A record whose link the validator reports unreachable is skipped:
the batch behaves exactly as if the record were absent. -/
theorem insert_remove_unreachable (reach : String → Bool) (item : InsertItem)
    (h : reach item.url = false) :
    ∀ (pre post : List InsertItem) (store : List Row),
      insert_news_data reach (pre ++ item :: post) store =
        insert_news_data reach (pre ++ post) store := by
  intro pre
  induction pre with
  | nil =>
      intro post store
      simp [insert_news_data, h]
  | cons q pre ih =>
      intro post store
      by_cases hq1 : reach q.url = false
      · simp [insert_news_data, hq1, ih]
      · by_cases hq2 : store.any (fun row => row.title == q.title) = true
        · simp [insert_news_data, hq1, hq2, ih]
        · simp [insert_news_data, hq1, hq2, ih]

/-- A record whose title is already stored is consumed as dedup: the
batch behaves exactly as if the record were absent, the remaining
records are still processed. -/
theorem insert_remove_duplicate (reach : String → Bool) (item : InsertItem) :
    ∀ (pre post : List InsertItem) (store : List Row),
      store.any (fun row => row.title == item.title) = true →
      insert_news_data reach (pre ++ item :: post) store =
        insert_news_data reach (pre ++ post) store := by
  intro pre
  induction pre with
  | nil =>
      intro post store hdup
      by_cases h1 : reach item.url = false
      · simp [insert_news_data, h1]
      · simp [insert_news_data, h1, hdup]
  | cons q pre ih =>
      intro post store hdup
      by_cases hq1 : reach q.url = false
      · simp [insert_news_data, hq1, ih _ _ hdup]
      · by_cases hq2 : store.any (fun row => row.title == q.title) = true
        · simp [insert_news_data, hq1, hq2, ih _ _ hdup]
        · have hdup2 : (store ++ [mkRow q]).any
              (fun row => row.title == item.title) = true := by
            simp only [List.any_append, hdup, Bool.true_or]
          simp [insert_news_data, hq1, hq2, ih _ _ hdup2]

/-- The returned count is the number of rows the batch added. -/
theorem insert_count_eq (reach : String → Bool) :
    ∀ (data : List InsertItem) (store : List Row),
      (insert_news_data reach data store).1 + store.length =
        (insert_news_data reach data store).2.length := by
  intro data
  induction data with
  | nil => intro store; simp [insert_news_data]
  | cons item rest ih =>
      intro store
      by_cases h1 : reach item.url = false
      · simpa [insert_news_data, h1] using ih store
      · by_cases h2 : store.any (fun row => row.title == item.title) = true
        · simpa [insert_news_data, h1, h2] using ih store
        · have hrec := ih (store ++ [mkRow item])
          simp only [List.length_append, List.length_cons, List.length_nil] at hrec
          simp only [insert_news_data, if_neg h1, if_neg h2]
          omega

/-! # Claims -/

/-- Claim C1, counterexample: `categorize_news` applied to the title
复旦大学举办学术讲座 does not return 活动, contradicting the claimed
tie-break outcome. -/
theorem categorize_fudan_not_huodong :
    categorize_news "复旦大学举办学术讲座" ≠ "活动" := by decide

/-- Claim C1, amended: `categorize_news("复旦大学举办学术讲座")`
returns 大学, matched via the keyword 大学 occurring in 复旦大学,
because the category 大学 precedes both 学术 and 活动 in the
enumeration order of `category_mapping`; first match in enumeration
order is the tie-break, so the keyword 讲座 of the later category 活动
is never consulted. -/
theorem categorize_fudan_first_match :
    categorize_news "复旦大学举办学术讲座" = "大学" := by decide

/-- Claim C2: for the document with exactly one anchor (text
上海大学召开2024年招生工作会议, href /news/1.htm) inside a span that
also holds the text 2024-05-10, extraction with base URL
https://news.shu.edu.cn/index/zyxw.htm yields exactly one candidate
with the given title, url https://news.shu.edu.cn/news/1.htm and date
2024-05-10; and the category the crawler derives from that title is
招生. -/
theorem extract_end_to_end :
    extract_news doc2 "https://news.shu.edu.cn/index/zyxw.htm" =
      [NewsItem.mk "上海大学召开2024年招生工作会议"
        "https://news.shu.edu.cn/news/1.htm" "2024-05-10"] ∧
    categorize_news "上海大学召开2024年招生工作会议" = "招生" := by
  constructor
  · exact extract_doc2
  · decide

/-- Claim C3: every record `extract_news` emits has a title of length
at least 8 that contains at least one character of the crawler's CJK
class (the range 4E00 to 9FA5, a subrange of the CJK unified
ideographs), for every document tree and base URL. -/
theorem extract_title_filter (root : Node) (base : String) (r : NewsItem)
    (hr : r ∈ extract_news root base) :
    8 ≤ r.title.length ∧ r.title.toList.any chineseChar = true := by
  unfold extract_news extractFrom at hr
  rcases List.mem_filterMap.mp hr with ⟨p, _, hp⟩
  exact processAnchor_title_checks base p r hp

/-- Witness for C3 at a concrete input: the record extracted from doc2
is in the output and satisfies the title guarantees. -/
theorem extract_title_filter_witness :
    rec2 ∈ extract_news doc2 "https://news.shu.edu.cn/index/zyxw.htm" ∧
      (8 ≤ rec2.title.length ∧ rec2.title.toList.any chineseChar = true) :=
  have mem : rec2 ∈ extract_news doc2 "https://news.shu.edu.cn/index/zyxw.htm" := by
    decide
  ⟨mem, extract_title_filter doc2 "https://news.shu.edu.cn/index/zyxw.htm" rec2 mem⟩

/-- Claim C4: `parse_date` maps 2024年3月5日 to 2024-03-05, 2024-03 to
2024-03-01 (day defaulting to 1 when only year and month are encoded),
and 20240305 to 2024-03-05. -/
theorem parse_date_examples :
    parse_date "2024年3月5日" = some (Date.mk 2024 3 5) ∧
    parse_date "2024-03" = some (Date.mk 2024 3 1) ∧
    parse_date "20240305" = some (Date.mk 2024 3 5) := by decide

/-- Claim C5: for every input string, `parse_date` tries the templates
of `date_formats` in their fixed order and returns the date produced by
the first template that parses the whole input (day forced to 1 for the
%Y-%m template), and it signals failure (the raised ValueError,
modelled as `none`) exactly when no template matches. -/
theorem parse_date_first_template (s : String) :
    (parse_date s = none ↔ ∀ fmt ∈ date_formats, strptime fmt s = none) ∧
    ∀ (pre : List String) (fmt : String) (post : List String) (y m d : Nat),
      date_formats = pre ++ fmt :: post →
      (∀ f ∈ pre, strptime f s = none) →
      strptime fmt s = some (y, m, d) →
      parse_date s = some (if fmt = "%Y-%m" then Date.mk y m 1 else Date.mk y m d) := by
  constructor
  · exact parse_dateAux_none_iff s date_formats
  · intro pre fmt post y m d heq hpre hf
    unfold parse_date
    rw [heq]
    exact parse_dateAux_first s pre fmt post y m d hpre hf

/-- Witness for C5 at a concrete input: 2024/12/31 is rejected by the
two templates before %Y/%m/%d and accepted by %Y/%m/%d. -/
theorem parse_date_first_template_witness :
    parse_date "2024/12/31" = some (Date.mk 2024 12 31) := by
  have h := (parse_date_first_template "2024/12/31").2
    ["%Y年%m月%d日", "%Y%m%d"] "%Y/%m/%d" ["%Y-%m-%d", "%Y-%m", "%m%d%Y", "%d%Y/%m"]
    2024 12 31 (by decide) (by decide) (by decide)
  simpa using h

/-- Claim C6: the date recognizer returns the first match in textual
(left-to-right) order — failure means no start position matches, and
the match at the leftmost matching position is returned — and among the
five alternatives of `date_pattern` the earlier one in written order
wins at the same start position; in particular the 8-digit MMDDYYYY
string 12312024 is consumed (entirely) by the first, looser
alternative, so `recognize` returns it via that alternative. -/
theorem recognize_leftmost_first_alternative :
    (∀ s : List Char, date_pattern_search s = none ↔
        ∀ k, matchAlts dateAlternatives (List.drop k s) = none) ∧
    (∀ (s : List Char) (k n : Nat),
        (∀ j, j < k → matchAlts dateAlternatives (List.drop j s) = none) →
        matchAlts dateAlternatives (List.drop k s) = some n →
        date_pattern_search s = some (List.take n (List.drop k s))) ∧
    (∀ (pre : List (List RTok)) (alt : List RTok) (post : List (List RTok))
        (s r : List Char),
        (∀ a ∈ pre, matchRToks a s = none) → matchRToks alt s = some r →
        matchAlts (pre ++ alt :: post) s = some (s.length - r.length)) ∧
    matchRToks reAlt1 (String.toList "12312024") = some [] ∧
    recognize "12312024" = some "12312024" := by
  refine ⟨search_none_iff, ?_, ?_, by decide, by decide⟩
  · intro s k n h1 h2
    exact search_leftmost s k n h1 h2
  · intro pre alt post s r h1 h2
    exact matchAlts_first_alternative pre alt post s r h1 h2

/-- Witness for C6 at a concrete input: in a2024/5/6 the search skips
the non-matching position 0 and returns the match at position 1. -/
theorem recognize_leftmost_witness :
    date_pattern_search (String.toList "a2024/5/6") =
      some (String.toList "2024/5/6") := by
  have h := recognize_leftmost_first_alternative.2.1
    (String.toList "a2024/5/6") 1 8 (by decide) (by decide)
  rw [h]
  decide

/-- Claim C7: a candidate whose found date substring fails to parse is
discarded alone: the records extracted from any anchor sequence
containing it are exactly those extracted with the anchor removed, for
every base URL and every surrounding anchors.  (Per-anchor failures are
thereby contained; in this model the extraction is a total function of
the parsed document, so nothing else escapes `extract_news`.) -/
theorem extract_date_failure_isolated (base : String)
    (pre post : List (Node × List Node)) (p : Node × List Node) (ds : String)
    (hfound : findDate (p.1 :: p.2) = some ds) (hfail : parse_date ds = none) :
    extractFrom base (pre ++ p :: post) = extractFrom base (pre ++ post) := by
  have hnone := processAnchor_none_of_bad_date base p ds hfound hfail
  simp [extractFrom, List.filterMap_append, List.filterMap_cons, hnone]

/-- Witness for C7 at a concrete input: the anchor with the
unparseable date 99/99/9999 is dropped and the remaining anchor is
extracted exactly as without it. -/
theorem extract_date_failure_isolated_witness :
    extractFrom "https://u.edu.cn/x/y.htm" [(a7bad, []), (a7good, [])] =
      extractFrom "https://u.edu.cn/x/y.htm" [(a7good, [])] :=
  extract_date_failure_isolated "https://u.edu.cn/x/y.htm" [] [(a7good, [])]
    (a7bad, []) "99/99/9999" (by decide) (by decide)

/-- Claim C8: for every reachability oracle, initial table and batch:
a record whose link is reported unreachable is never inserted (the
batch result is that of the batch without it); a record whose title is
already stored adds nothing, raises nothing, and the rest of the batch
is still processed (again the batch result is that of the batch without
it); and the returned count is exactly the number of rows inserted. -/
theorem insert_dedup_and_count (reach : String → Bool) (store : List Row) :
    (∀ (pre post : List InsertItem) (item : InsertItem),
        reach item.url = false →
        insert_news_data reach (pre ++ item :: post) store =
          insert_news_data reach (pre ++ post) store) ∧
    (∀ (pre post : List InsertItem) (item : InsertItem),
        store.any (fun row => row.title == item.title) = true →
        insert_news_data reach (pre ++ item :: post) store =
          insert_news_data reach (pre ++ post) store) ∧
    (∀ data : List InsertItem,
        (insert_news_data reach data store).1 + store.length =
          (insert_news_data reach data store).2.length) := by
  refine ⟨?_, ?_, ?_⟩
  · intro pre post item h
    exact insert_remove_unreachable reach item h pre post store
  · intro pre post item h
    exact insert_remove_duplicate reach item pre post store h
  · intro data
    exact insert_count_eq reach data store

/-- Witness for C8 at a concrete input: a batch holding one record
whose title is already stored behaves as the empty batch. -/
theorem insert_dedup_and_count_witness :
    insert_news_data (fun u => u != "http://dead.example/x")
        [InsertItem.mk "某大学" "已有新闻标题八个字" "2024-02-02" "http://ok.example/2"]
        [Row.mk "某大学" "已有新闻标题八个字" "2024-01-01" "http://ok.example/1" "其他"] =
      insert_news_data (fun u => u != "http://dead.example/x") []
        [Row.mk "某大学" "已有新闻标题八个字" "2024-01-01" "http://ok.example/1" "其他"] :=
  (insert_dedup_and_count (fun u => u != "http://dead.example/x")
      [Row.mk "某大学" "已有新闻标题八个字" "2024-01-01" "http://ok.example/1" "其他"]).2.1
    [] []
    (InsertItem.mk "某大学" "已有新闻标题八个字" "2024-02-02" "http://ok.example/2")
    (by decide)

/-- Claim C9: the link validator is a total function of the probe
outcome (the source catches RequestException and ValueError, covering
network error, timeout and malformed URL, so nothing propagates) and
returns true exactly on an explicit success response — the status-200
case; every error outcome yields false. -/
theorem check_url_never_raises (o : ProbeOutcome) :
    check_url_availability o = true ↔ o = ProbeOutcome.success 200 := by
  cases o with
  | success status => simp [check_url_availability]
  | networkError => simp [check_url_availability]
  | timedOut => simp [check_url_availability]
  | malformedUrl => simp [check_url_availability]

/-- Witness for C9 at a concrete input: a network error yields false,
not an exception. -/
theorem check_url_never_raises_witness :
    check_url_availability ProbeOutcome.networkError = false := by
  by_cases hb : check_url_availability ProbeOutcome.networkError = true
  · exact absurd ((check_url_never_raises ProbeOutcome.networkError).mp hb)
      (by decide)
  · simpa using hb

/-- Claim C10: `extract_news` deduplicates nothing within a call: the
two-anchor document doc10, whose anchors have identical text and
distinct hrefs, yields two records with the same title (and they are
distinct records); uniqueness of the title is enforced only at
insertion, where the same two records inserted into an empty table
produce exactly one row. -/
theorem extract_no_dedup_within_call :
    extract_news doc10 "https://example.edu.cn/news/index.htm" = [rec10a, rec10b] ∧
    rec10a.title = rec10b.title ∧
    rec10a ≠ rec10b ∧
    (insert_news_data (fun _ => true)
        [InsertItem.mk "测试大学" rec10a.title rec10a.date rec10a.url,
         InsertItem.mk "测试大学" rec10b.title rec10b.date rec10b.url] []).1 = 1 := by
  refine ⟨by decide, by decide, by decide, by decide⟩
